import Mathlib

/-!
Verification of the video transcription pipeline (`main.go`).

The active Go source (lines 1-619 of `src/main.go`; everything below is a
commented-out older revision) is shallowly embedded here.  External effects
(ffmpeg/ffprobe invocations, file system, cloud model calls) are abstracted
into explicit environment records whose fields say whether each external
step succeeds and what it returns; each embedded function mirrors the
source's control flow over those outcomes and additionally records the
observable events (temp-dir creation/removal, uploads, deletions, sleeps)
that the claims talk about.  `float64` durations coming from `ffprobe` are
modelled as exact rationals; Go's `int(x)` truncation toward zero and Go's
`%` (truncated modulus) are modelled explicitly.
-/

namespace VideoTranscription

/-! ## VideoSegmenter (`chunkVideo`, main.go lines 94-152) -/

/-- Go's `int(x)` conversion from `float64`: truncation toward zero,
here on exact rationals. -/
def goTrunc (x : ℚ) : ℤ := if 0 ≤ x then ⌊x⌋ else ⌈x⌉

/-- The segment-count computation of `chunkVideo` (main.go lines 118-121):
`numChunks := int(duration / float64(chunkDuration))`, incremented when
`int(duration) % chunkDuration != 0` (Go's `%` is truncated modulus,
modelled by `Int.tmod`). -/
def numChunks (duration : ℚ) (chunkDuration : ℤ) : ℤ :=
  let n := goTrunc (duration / (chunkDuration : ℚ))
  if Int.tmod (goTrunc duration) chunkDuration ≠ 0 then n + 1 else n

/-- `ChunkData` struct (main.go lines 28-35).  `err` is the `Err` field;
the sequential `chunkVideo` never populates it. -/
structure ChunkData where
  videoPath : String
  audioPath : String
  chunkNum : ℤ
  err : Option String
  videoIndex : ℤ
  baseName : String
deriving DecidableEq, Repr

/-- Outcomes of the external steps `chunkVideo` performs: whether `ffmpeg`
is on the PATH, whether the temp dir is created, whether `ffprobe`
succeeds, what duration its output parses to (`none` = parse failure), and
whether the extraction command for chunk `i` succeeds. -/
structure ChunkEnv where
  ffmpegFound : Bool
  mkdirOk : Bool
  probeOk : Bool
  probedDuration : Option ℚ
  extractOk : ℕ → Bool

/-- File-system events chunkVideo can perform on its temp directory. -/
inductive ChunkEvent where
  | mkTempDir
  | removeTempDir
  | ffprobeRun
  | extract (i : ℕ)
deriving DecidableEq, Repr

/-- The chunk record built at loop index `i` (main.go lines 127-128, 148). -/
def mkChunk (tempDir : String) (i : ℕ) (videoIndex : ℤ) (baseName : String) : ChunkData :=
  { videoPath := s!"{tempDir}/chunk_{i}_video_{videoIndex}.mp4"
    audioPath := s!"{tempDir}/chunk_{i}_video_{videoIndex}.wav"
    chunkNum := (i : ℤ)
    err := none
    videoIndex := videoIndex
    baseName := baseName }

/-- The extraction loop of `chunkVideo` (main.go lines 125-149): runs
`ffmpeg` for chunks `i, i+1, ...` while `remaining` chunks are left; on the
first failure it returns the error immediately — with no partial list and,
notably, with no `removeTempDir` event (the source's line 146 `return`
does not call `os.RemoveAll(tempDir)`). -/
def chunkLoop (env : ChunkEnv) (tempDir : String) (videoIndex : ℤ) (baseName : String) :
    ℕ → ℕ → Except String (List ChunkData) × List ChunkEvent
  | _, 0 => (.ok [], [])
  | i, remaining + 1 =>
    if env.extractOk i then
      match chunkLoop env tempDir videoIndex baseName (i + 1) remaining with
      | (.ok chunks, evs) =>
          (.ok (mkChunk tempDir i videoIndex baseName :: chunks), .extract i :: evs)
      | (.error e, evs) => (.error e, .extract i :: evs)
    else
      (.error s!"error creating video chunk {i} for video {videoIndex}", [.extract i])

/-- `chunkVideo` (main.go lines 94-152): look up ffmpeg, create the temp
directory, probe and parse the duration (both failure paths remove the
temp directory), compute `numChunks`, then run the extraction loop.
Returns the result together with the list of temp/file events performed. -/
def chunkVideo (env : ChunkEnv) (chunkDuration : ℤ) (videoIndex : ℤ) (baseName : String) :
    Except String (List ChunkData) × List ChunkEvent :=
  if ¬ env.ffmpegFound then (.error "ffmpeg not found in PATH", [])
  else if ¬ env.mkdirOk then (.error "error creating temporary directory", [])
  else if ¬ env.probeOk then
    (.error "error getting video duration", [.mkTempDir, .ffprobeRun, .removeTempDir])
  else
    match env.probedDuration with
    | none => (.error "error parsing video duration", [.mkTempDir, .ffprobeRun, .removeTempDir])
    | some duration =>
      let n := (numChunks duration chunkDuration).toNat
      let r := chunkLoop env "tmp" videoIndex baseName 0 n
      (r.1, [ChunkEvent.mkTempDir, ChunkEvent.ffprobeRun] ++ r.2)

/-- A run of `chunkVideo` in which every external step succeeds and the
probed duration is 60.5 seconds. -/
def chunkEnvAllOk : ChunkEnv :=
  { ffmpegFound := true, mkdirOk := true, probeOk := true
    probedDuration := some (121 / 2), extractOk := fun _ => true }

/-- A run of `chunkVideo` in which the probe reports 95 seconds and the
ffmpeg extraction of chunk 1 fails. -/
def chunkEnvExtractFail : ChunkEnv :=
  { ffmpegFound := true, mkdirOk := true, probeOk := true
    probedDuration := some 95, extractOk := fun i => decide (i = 0) }

/-! ## Per-video loop of `main` (main.go lines 518-599) -/

/-- Per-job outcomes of the external steps the `main` loop performs before
processing a video: creation of the three output files and `chunkVideo`. -/
structure JobEnv where
  outputCreateOk : Bool
  audioCreateOk : Bool
  videoCreateOk : Bool
  chunkOk : Bool
deriving DecidableEq, Repr

/-- Result of the run: either the loop finished (with the indices of the
videos whose chunks were processed) or `log.Fatalf` terminated the whole
process early. -/
inductive RunOutcome where
  | completed (processed : List ℕ)
  | fatalExit (processed : List ℕ)
deriving DecidableEq, Repr

/-- The per-video loop of `main` (lines 518-599), restricted to the steps
that decide which videos get processed.  `log.Fatalf` (lines 529, 536,
543) prints and then calls `os.Exit(1)`, terminating the process — the
`continue` statements after it are unreachable — modelled by `fatalExit`.
A `chunkVideo` failure (lines 551-554) is `log.Printf` + `continue`. -/
def runLoop : List JobEnv → List ℕ → ℕ → RunOutcome
  | [], acc, _ => .completed acc.reverse
  | env :: rest, acc, idx =>
    if ¬ env.outputCreateOk then .fatalExit acc.reverse
    else if ¬ env.audioCreateOk then .fatalExit acc.reverse
    else if ¬ env.videoCreateOk then .fatalExit acc.reverse
    else if ¬ env.chunkOk then runLoop rest acc (idx + 1)
    else runLoop rest (idx :: acc) (idx + 1)

/-- A job where all four steps succeed. -/
def jobOk : JobEnv := ⟨true, true, true, true⟩

/-- A job whose combined-output stream fails to open. -/
def jobStreamFail : JobEnv := ⟨false, true, true, true⟩

/-- A job whose segmentation (`chunkVideo`) fails. -/
def jobChunkFail : JobEnv := ⟨true, true, true, false⟩

/-- C1: the claim says `chunkVideo` produces exactly `ceil(D/C)` segments.
The code (lines 118-121) computes `int(D/C)` and increments only when
`int(D) % C != 0`, which undercounts for fractional probed durations: with
D = 60.5 s and C = 60 s every external step succeeding, `chunkVideo`
returns exactly 1 segment although `ceil(60.5/60) = 2` — the window
[60, 60.5) is silently dropped, contradicting the spec's gap-free
partition of [0, D). -/
theorem chunkVideo_fractional_duration_undercount :
    ((chunkVideo chunkEnvAllOk 60 1 "lecture").1.toOption.map List.length = some 1) ∧
    ⌈(121 / 2 : ℚ) / 60⌉ = 2 := by
  have hnum : numChunks (121 / 2) 60 = 1 := by norm_num [numChunks, goTrunc]
  constructor
  · simp [chunkVideo, chunkEnvAllOk, hnum, chunkLoop, Except.toOption]
  · rw [show ((121 / 2 : ℚ) / 60) = 121 / 120 by norm_num, Int.ceil_eq_iff]
    norm_num

/-- C7: the claim says every temporary artifact is removed on every exit
path.  When the ffmpeg extraction of chunk 1 fails (probed duration 95 s,
chunk length 60 s), `chunkVideo` returns the error with no partial list,
but — unlike its probe and parse failure paths — performs no
`os.RemoveAll(tempDir)` (line 146): the chunk temp directory it created,
together with chunk 0's files, is never removed. -/
theorem chunkVideo_no_cleanup_on_extract_failure :
    ((chunkVideo chunkEnvExtractFail 60 1 "lecture").1.isOk = false) ∧
    ChunkEvent.mkTempDir ∈ (chunkVideo chunkEnvExtractFail 60 1 "lecture").2 ∧
    ChunkEvent.removeTempDir ∉ (chunkVideo chunkEnvExtractFail 60 1 "lecture").2 := by
  have hnum : numChunks 95 60 = 2 := by norm_num [numChunks, goTrunc, Int.tmod]
  refine ⟨?_, ?_, ?_⟩ <;>
    simp [chunkVideo, chunkEnvExtractFail, hnum, chunkLoop, Except.isOk, Except.toBool]

/-- C2: the claim says a stream-open failure, like a segmentation failure,
aborts only its job and the run continues with the next video.  In the
source a segmentation failure indeed continues (`log.Printf` + `continue`,
lines 551-554), but a stream-open failure calls `log.Fatalf`
(lines 529, 536, 543), which exits the whole process, so with two videos
where the first video's combined output file fails to open, no video is
processed at all — the run never reaches the second video. -/
theorem runLoop_stream_failure_kills_run :
    runLoop [jobStreamFail, jobOk] [] 0 = .fatalExit [] ∧
    runLoop [jobChunkFail, jobOk] [] 0 = .completed [1] := by
  constructor <;> rfl

/-! ## RetryingPromptSender (`sentLlmPrompt`, main.go lines 49-92) -/

/-- A `genai.Part` of a model response: a text part or any non-text part
(file data etc.), which `sentLlmPrompt` skips. -/
inductive Part where
  | text (s : String)
  | fileData
deriving DecidableEq

/-- A response candidate; `content` is `none` when the candidate's
`Content` pointer is nil (skipped by the source's nil check). -/
structure Candidate where
  content : Option (List Part)

/-- The structured response of one `GenerateContent` call. -/
structure GenResponse where
  candidates : List Candidate

/-- Text contributed by one part (non-text parts contribute nothing,
mirroring the `if text, ok := part.(genai.Text)` type switch). -/
def partText : Part → String
  | .text s => s
  | .fileData => ""

/-- Text contributed by one candidate's content (nil content skipped). -/
def contentText : Option (List Part) → String
  | none => ""
  | some ps => ps.foldl (fun acc p => acc ++ partText p) ""

/-- The aggregation of `sentLlmPrompt`'s success path (lines 63-77):
concatenation of all textual response parts over all candidates. -/
def gatherText (r : GenResponse) : String :=
  r.candidates.foldl (fun acc c => acc ++ contentText c.content) ""

/-- `maxRetries` constant (main.go line 50). -/
def maxRetries : ℕ := 3

/-- `retryDelay` constant in seconds (main.go line 51). -/
def retryDelaySecs : ℕ := 15

/-- Observable outcome of one `sentLlmPrompt` call: the returned string,
how many `GenerateContent` attempts were made, and the sleeps performed
between attempts (in seconds). -/
structure LlmCallLog where
  result : String
  attemptsMade : ℕ
  sleeps : List ℕ

/-- The retry loop of `sentLlmPrompt` (lines 56-90): `gen k` is the
outcome of the `GenerateContent` call on attempt `k`; `remaining` is
`maxRetries - attempt`, so `remaining = 0` exactly when
`attempt < maxRetries` fails and the loop returns `""` (line 88). -/
def goLoop (gen : ℕ → Except Unit GenResponse) : ℕ → ℕ → LlmCallLog
  | attempt, 0 =>
    match gen attempt with
    | .ok r => ⟨gatherText r, 1, []⟩
    | .error _ => ⟨"", 1, []⟩
  | attempt, rem + 1 =>
    match gen attempt with
    | .ok r => ⟨gatherText r, 1, []⟩
    | .error _ =>
      let rest := goLoop gen (attempt + 1) rem
      ⟨rest.result, rest.attemptsMade + 1, retryDelaySecs :: rest.sleeps⟩

/-- `sentLlmPrompt` (main.go lines 55-92): run the retry loop starting at
attempt 0 with `maxRetries` retries left. -/
def sentLlmPrompt (gen : ℕ → Except Unit GenResponse) : LlmCallLog :=
  goLoop gen 0 maxRetries

lemma goLoop_attempts (gen : ℕ → Except Unit GenResponse) :
    ∀ rem a, (goLoop gen a rem).attemptsMade ≤ rem + 1 := by
  intro rem
  induction rem with
  | zero => intro a; cases h : gen a <;> simp [goLoop, h]
  | succ n ih =>
    intro a
    cases h : gen a with
    | ok r => simp [goLoop, h]
    | error e =>
      have := ih (a + 1)
      simp [goLoop, h]
      omega

lemma goLoop_sleeps (gen : ℕ → Except Unit GenResponse) :
    ∀ rem a d, d ∈ (goLoop gen a rem).sleeps → d = retryDelaySecs := by
  intro rem
  induction rem with
  | zero => intro a d hd; cases h : gen a <;> simp [goLoop, h] at hd
  | succ n ih =>
    intro a d hd
    cases h : gen a with
    | ok r => simp [goLoop, h] at hd
    | error e =>
      simp [goLoop, h] at hd
      rcases hd with hd | hd
      · exact hd
      · exact ih (a + 1) d hd

lemma goLoop_all_fail (gen : ℕ → Except Unit GenResponse) :
    ∀ rem a, (∀ k, a ≤ k → k ≤ a + rem → gen k = .error ()) →
      (goLoop gen a rem).result = "" := by
  intro rem
  induction rem with
  | zero =>
    intro a h
    have := h a le_rfl (by omega)
    simp [goLoop, this]
  | succ n ih =>
    intro a h
    have ha := h a le_rfl (by omega)
    have := ih (a + 1) (fun k hk1 hk2 => h k (by omega) (by omega))
    simp [goLoop, ha, this]

lemma goLoop_first_success (gen : ℕ → Except Unit GenResponse) :
    ∀ rem a j r, a ≤ j → j ≤ a + rem →
      (∀ k, a ≤ k → k < j → gen k = .error ()) → gen j = .ok r →
      (goLoop gen a rem).result = gatherText r := by
  intro rem
  induction rem with
  | zero =>
    intro a j r haj hja hfail hok
    have : j = a := by omega
    subst this
    simp [goLoop, hok]
  | succ n ih =>
    intro a j r haj hja hfail hok
    by_cases hja' : j = a
    · subst hja'
      simp [goLoop, hok]
    · have ha : gen a = .error () := hfail a le_rfl (by omega)
      have := ih (a + 1) j r (by omega) (by omega)
        (fun k hk1 hk2 => hfail k (by omega) hk2) hok
      simp [goLoop, ha, this]

/-- C3: `sentLlmPrompt` makes at most `maxRetries + 1` attempts at the
cloud model; every inter-attempt delay is the fixed `retryDelay` (no
backoff growth); if all allowed attempts fail it returns the empty string
(and, its return type being a plain string, never surfaces an error to
its caller); on the first successful attempt it returns the concatenation
of all textual response parts. -/
theorem sentLlmPrompt_retry_bound (gen : ℕ → Except Unit GenResponse) :
    (sentLlmPrompt gen).attemptsMade ≤ maxRetries + 1 ∧
    (∀ d ∈ (sentLlmPrompt gen).sleeps, d = retryDelaySecs) ∧
    ((∀ k, k ≤ maxRetries → gen k = .error ()) → (sentLlmPrompt gen).result = "") ∧
    (∀ j r, j ≤ maxRetries → (∀ k, k < j → gen k = .error ()) → gen j = .ok r →
      (sentLlmPrompt gen).result = gatherText r) := by
  refine ⟨goLoop_attempts gen maxRetries 0, fun d hd => goLoop_sleeps gen maxRetries 0 d hd,
    fun h => goLoop_all_fail gen maxRetries 0 (fun k _ hk => h k (by omega)), ?_⟩
  intro j r hj hfail hok
  exact goLoop_first_success gen maxRetries 0 j r (by omega) (by omega)
    (fun k _ hk => hfail k hk) hok

/-- A model run in which every `GenerateContent` attempt fails. -/
def genAlwaysFail : ℕ → Except Unit GenResponse := fun _ => .error ()

/-- Witness for C3 at a concrete always-failing model. -/
theorem sentLlmPrompt_retry_bound_witness :
    (sentLlmPrompt genAlwaysFail).result = "" ∧
    (sentLlmPrompt genAlwaysFail).attemptsMade ≤ maxRetries + 1 :=
  ⟨(sentLlmPrompt_retry_bound genAlwaysFail).2.2.1 (fun _ _ => rfl),
   (sentLlmPrompt_retry_bound genAlwaysFail).1⟩

/-! ## TextRecognitionEnsemble (`transcribeFramesTesseractCLI`,
main.go lines 221-341) -/

/-- Outcomes of the external steps one OCR worker goroutine performs on
its frame: opening the image, decoding it, JPEG re-encoding, temp-file
creation/write/close, and the tesseract run itself. -/
structure FrameEnv where
  openOk : Bool
  decodeOk : Bool
  encodeOk : Bool
  createTempOk : Bool
  writeOk : Bool
  closeOk : Bool
  tessResult : Except Unit String

/-- Temp-file events of one OCR worker. -/
inductive OcrEvent where
  | createTempFile
  | removeTempFile
deriving DecidableEq

/-- One worker goroutine of `transcribeFramesTesseractCLI` (lines
241-324): each failure point sends an error on the channel and returns;
once the temp file is created, the deferred `os.Remove` (line 286) runs
on every exit path, so `removeTempFile` appears exactly once after
`createTempFile`. -/
def ocrWorker (fp : String) (env : FrameEnv) : Except String String × List OcrEvent :=
  if ¬ env.openOk then (.error s!"error opening image file {fp}", [])
  else if ¬ env.decodeOk then (.error s!"error decoding image file {fp}", [])
  else if ¬ env.encodeOk then (.error "error encoding image to JPEG", [])
  else if ¬ env.createTempOk then (.error "error creating temp file", [])
  else if ¬ env.writeOk then
    (.error "error writing to temp file", [.createTempFile, .removeTempFile])
  else if ¬ env.closeOk then
    (.error "error closing temp file", [.createTempFile, .removeTempFile])
  else
    match env.tessResult with
    | .error _ => (.error s!"error running tesseract on {fp}", [.createTempFile, .removeTempFile])
    | .ok t => (.ok t, [.createTempFile, .removeTempFile])

/-- Concatenation of a list of strings (the merged transcript). -/
def joinAll : List String → String
  | [] => ""
  | s :: rest => s ++ joinAll rest

/-- The result-collection loop (lines 331-338): errors are logged and
skipped, each successful text is appended followed by a newline. -/
def collectResults (rs : List (Except String String)) : String :=
  rs.foldl (fun acc r => match r with
    | .error _ => acc
    | .ok t => acc ++ t ++ "\n") ""

/-- `transcribeFramesTesseractCLI` (main.go lines 221-341): run one
worker per frame, wait for all of them, then fold the collected results.
The workers report through a fully buffered channel; the collection
order is channel-arrival order, modelled here by the order of the input
list.  The source's only `return` (line 340) carries a nil error. -/
def transcribeFramesTesseractCLI (frames : List (String × FrameEnv)) :
    Except String String :=
  .ok (collectResults (frames.map (fun p => (ocrWorker p.1 p.2).1)))

/-- The texts of the frames whose worker succeeded, in collection order. -/
def successTexts (frames : List (String × FrameEnv)) : List String :=
  frames.filterMap (fun p => ((ocrWorker p.1 p.2).1).toOption)

lemma collect_fold_eq :
    ∀ (rs : List (Except String String)) (acc : String),
      rs.foldl (fun acc r => match r with
        | .error _ => acc
        | .ok t => acc ++ t ++ "\n") acc
        = acc ++ joinAll ((rs.filterMap Except.toOption).map (fun t => t ++ "\n")) := by
  intro rs
  induction rs with
  | nil => intro acc; simp [joinAll]
  | cons r rest ih =>
    intro acc
    cases r with
    | error e => simpa [Except.toOption, joinAll] using ih acc
    | ok t =>
      simp only [List.foldl, List.filterMap, Except.toOption, List.map, joinAll]
      rw [ih (acc ++ t ++ "\n")]
      simp [String.append_assoc]

lemma collectResults_eq (frames : List (String × FrameEnv)) :
    collectResults (frames.map (fun p => (ocrWorker p.1 p.2).1))
      = joinAll ((successTexts frames).map (fun t => t ++ "\n")) := by
  have := collect_fold_eq (frames.map (fun p => (ocrWorker p.1 p.2).1)) ""
  simpa [collectResults, successTexts, List.filterMap_map, Function.comp] using this

/-- C6: for any list of frames, however many of them fail at whichever
stage (open, decode, re-encode, temp-file I/O, or the OCR engine),
`transcribeFramesTesseractCLI` returns the concatenation of the texts of
the successful frames, each followed by a newline, with a nil error: the
call never fails outright. -/
theorem ensemble_resilience (frames : List (String × FrameEnv)) :
    transcribeFramesTesseractCLI frames
      = .ok (joinAll ((successTexts frames).map (fun t => t ++ "\n"))) := by
  simp [transcribeFramesTesseractCLI, collectResults_eq]

/-! ## VideoTranscriptionTask (`transcribeVideoLLM`, main.go lines 343-399) -/

/-- Observable events of one `transcribeVideoLLM` call.
`deleteCloudFile b` records the deferred `client.DeleteFile` call, with
`b` saying whether that call returned an error; `logDeleteError` is the
log entry the code would emit if it logged such an error (the deferred
closure on line 368 discards `DeleteFile`'s return value, so this event
is never produced). -/
inductive VEvent where
  | uploadAttempt
  | activationSleep
  | promptSent
  | deleteCloudFile (failed : Bool)
  | logDeleteError
  | extractFramesCall
  | removeFramesDir
deriving DecidableEq

/-- Outcomes of the external steps `transcribeVideoLLM` performs: the
upload, whether the eventual cloud-file deletion fails, the
`GenerateContent` outcomes consumed by `sentLlmPrompt`, and the frame
extraction used by the OCR fallback (carrying the per-frame worker
outcomes). -/
structure VEnv where
  uploadOk : Bool
  deleteFails : Bool
  gen : ℕ → Except Unit GenResponse
  extract : Except Unit (List (String × FrameEnv))

/-- `transcribeVideoLLM` (main.go lines 343-399).  On upload failure it
falls straight back to `extractFrames` + `transcribeFramesTesseractCLI`
(lines 346-363; the frames temp dir is removed only on success there).
On upload success it sleeps 30 s, registers the deferred cloud-file
deletion, prompts once via `sentLlmPrompt`, and falls back to the same
OCR path when the aggregated response text is empty (lines 378-394,
where the frames dir is removed before the error check).  The deferred
deletion runs on every post-upload exit path, last, with its error
discarded. -/
def transcribeVideoLLM (env : VEnv) : Except String String × List VEvent :=
  if ¬ env.uploadOk then
    match env.extract with
    | .error _ => (.error "error extracting frames", [.uploadAttempt, .extractFramesCall])
    | .ok frames =>
      match transcribeFramesTesseractCLI frames with
      | .error e => (.error e, [.uploadAttempt, .extractFramesCall])
      | .ok t =>
        (.ok t, [.uploadAttempt, .extractFramesCall] ++
          (if frames.length > 0 then [VEvent.removeFramesDir] else []))
  else
    let preEvents : List VEvent := [.uploadAttempt, .activationSleep, .promptSent]
    let postEvents : List VEvent := [.deleteCloudFile env.deleteFails]
    let videoTranscript := (sentLlmPrompt env.gen).result
    if videoTranscript = "" then
      match env.extract with
      | .error _ =>
        (.error "error extracting frames", preEvents ++ [.extractFramesCall] ++ postEvents)
      | .ok frames =>
        let cleanup := if frames.length > 0 then [VEvent.removeFramesDir] else []
        match transcribeFramesTesseractCLI frames with
        | .error e => (.error e, preEvents ++ [.extractFramesCall] ++ cleanup ++ postEvents)
        | .ok t => (.ok t, preEvents ++ [.extractFramesCall] ++ cleanup ++ postEvents)
    else
      (.ok videoTranscript, preEvents ++ postEvents)

/-- C4: if the cloud upload fails, `transcribeVideoLLM` goes directly to
the OCR fallback — exactly one upload attempt is ever made (no upload
retry) and frame extraction runs — and whenever extraction succeeds the
result is the ensemble's (possibly empty) concatenation, final.  If the
upload succeeds but the aggregated prompt response text is empty, the
same fallback is taken with the same final result. -/
theorem transcribeVideoLLM_fallback (env : VEnv) :
    (env.uploadOk = false →
      ((transcribeVideoLLM env).2.count VEvent.uploadAttempt = 1) ∧
      VEvent.extractFramesCall ∈ (transcribeVideoLLM env).2 ∧
      (∀ frames, env.extract = .ok frames →
        (transcribeVideoLLM env).1
          = .ok (joinAll ((successTexts frames).map (fun t => t ++ "\n"))))) ∧
    (env.uploadOk = true → (sentLlmPrompt env.gen).result = "" →
      ((transcribeVideoLLM env).2.count VEvent.uploadAttempt = 1) ∧
      VEvent.extractFramesCall ∈ (transcribeVideoLLM env).2 ∧
      (∀ frames, env.extract = .ok frames →
        (transcribeVideoLLM env).1
          = .ok (joinAll ((successTexts frames).map (fun t => t ++ "\n"))))) := by
  constructor
  · intro h
    cases hx : env.extract with
    | error e =>
      refine ⟨?_, ?_, ?_⟩
      · simp [transcribeVideoLLM, h, hx]
      · simp [transcribeVideoLLM, h, hx]
      · intro frames hf
        simp at hf
    | ok frames =>
      refine ⟨?_, ?_, ?_⟩
      · by_cases hl : frames.length > 0 <;>
          simp [transcribeVideoLLM, h, hx, transcribeFramesTesseractCLI, hl]
      · simp [transcribeVideoLLM, h, hx, transcribeFramesTesseractCLI]
      · intro frames2 hf
        injection hf with hf2
        subst hf2
        simp [transcribeVideoLLM, h, hx, transcribeFramesTesseractCLI, collectResults_eq]
  · intro h hempty
    cases hx : env.extract with
    | error e =>
      refine ⟨?_, ?_, ?_⟩
      · simp [transcribeVideoLLM, h, hx, hempty]
      · simp [transcribeVideoLLM, h, hx, hempty]
      · intro frames hf
        simp at hf
    | ok frames =>
      refine ⟨?_, ?_, ?_⟩
      · by_cases hl : frames.length > 0 <;>
          simp [transcribeVideoLLM, h, hx, hempty, transcribeFramesTesseractCLI, hl]
      · simp [transcribeVideoLLM, h, hx, hempty, transcribeFramesTesseractCLI]
      · intro frames2 hf
        injection hf with hf2
        subst hf2
        by_cases hl : frames.length > 0 <;>
          simp [transcribeVideoLLM, h, hx, hempty, transcribeFramesTesseractCLI, hl,
            collectResults_eq]

/-- A frame whose worker pipeline fully succeeds with OCR text "SLIDE". -/
def frameOkEnv : FrameEnv := ⟨true, true, true, true, true, true, .ok "SLIDE"⟩

/-- A one-frame extraction result. -/
def framesEx : List (String × FrameEnv) := [("frame_0001.jpg", frameOkEnv)]

/-- A `transcribeVideoLLM` run whose cloud upload fails. -/
def envUploadFail : VEnv := ⟨false, false, genAlwaysFail, .ok framesEx⟩

/-- Witness for C4 at a concrete failing upload. -/
theorem transcribeVideoLLM_fallback_witness :
    (transcribeVideoLLM envUploadFail).1
      = .ok (joinAll ((successTexts framesEx).map (fun t => t ++ "\n"))) :=
  ((transcribeVideoLLM_fallback envUploadFail).1 rfl).2.2 framesEx rfl

/-- A model run whose every `GenerateContent` attempt succeeds with the
single text part "hello". -/
def genHello : ℕ → Except Unit GenResponse :=
  fun _ => .ok ⟨[⟨some [Part.text "hello"]⟩]⟩

/-- A `transcribeVideoLLM` run: upload succeeds, the prompt answers
"hello", and the deferred cloud-file deletion fails. -/
def envDeleteFail : VEnv := ⟨true, true, genHello, .ok framesEx⟩

/-- C9 counterexample: with a successful upload, a non-empty prompt
response and a failing cloud-file deletion, the deletion error is not
fatal (the transcript is still returned) and the deletion is attempted —
but nothing is logged about the failure: the deferred closure
`func() { client.DeleteFile(ctx, uploadedFile.Name) }` (line 368)
discards the error, contradicting the claim that deletion errors are
logged. -/
theorem cloud_delete_error_not_logged :
    (transcribeVideoLLM envDeleteFail).1 = .ok "hello" ∧
    VEvent.deleteCloudFile true ∈ (transcribeVideoLLM envDeleteFail).2 ∧
    VEvent.logDeleteError ∉ (transcribeVideoLLM envDeleteFail).2 := by
  have hres : (sentLlmPrompt genHello).result = "hello" := by
    simp [sentLlmPrompt, goLoop, maxRetries, genHello, gatherText, contentText, partText]
  refine ⟨?_, ?_, ?_⟩ <;>
    simp [transcribeVideoLLM, envDeleteFail, hres]

/-- C9 amended: after a successful upload the deferred deletion of the
uploaded cloud artifact runs on every exit path, after the prompt
completes (it is the last event), regardless of outcome; a deletion
failure never changes the returned result (not fatal) but is silently
discarded rather than logged. -/
theorem cloud_delete_after_prompt (env : VEnv) (h : env.uploadOk = true) :
    (transcribeVideoLLM env).2.getLast? = some (VEvent.deleteCloudFile env.deleteFails) ∧
    VEvent.promptSent ∈ (transcribeVideoLLM env).2 ∧
    (∀ b, (transcribeVideoLLM { env with deleteFails := b }).1 = (transcribeVideoLLM env).1) ∧
    VEvent.logDeleteError ∉ (transcribeVideoLLM env).2 := by
  by_cases hempty : (sentLlmPrompt env.gen).result = ""
  · cases hx : env.extract with
    | error e =>
      refine ⟨?_, ?_, fun b => ?_, ?_⟩ <;> simp [transcribeVideoLLM, h, hx, hempty]
    | ok frames =>
      refine ⟨?_, ?_, fun b => ?_, ?_⟩ <;>
        by_cases hl : frames.length > 0 <;>
        simp [transcribeVideoLLM, h, hx, hempty, transcribeFramesTesseractCLI, hl]
  · refine ⟨?_, ?_, fun b => ?_, ?_⟩ <;> simp [transcribeVideoLLM, h, hempty]

/-- A `transcribeVideoLLM` run: upload succeeds, the prompt answers
"hello", and the cloud-file deletion succeeds. -/
def envCloudOk : VEnv := ⟨true, false, genHello, .ok framesEx⟩

/-- Witness for the amended C9 at a concrete successful upload. -/
theorem cloud_delete_after_prompt_witness :
    (transcribeVideoLLM envCloudOk).2.getLast? = some (VEvent.deleteCloudFile false) ∧
    VEvent.logDeleteError ∉ (transcribeVideoLLM envCloudOk).2 :=
  ⟨(cloud_delete_after_prompt envCloudOk rfl).1,
   (cloud_delete_after_prompt envCloudOk rfl).2.2.2⟩

/-! ## SegmentProcessor (`processChunk`, main.go lines 401-454) -/

/-- One formatted record appended to an output stream
(`fmt.Fprintf(file, "Video Index: %d, Chunk: %d\n%s\n", ...)`). -/
structure StreamRecord where
  videoIndex : ℤ
  chunkNum : ℤ
  body : String
deriving DecidableEq

/-- Outcomes of the two transcription tasks `processChunk` runs for one
segment. -/
structure ProcEnv where
  audioResult : Except Unit String
  videoResult : Except Unit String

/-- The failure placeholder substituted on audio-task failure
(main.go line 423). -/
def audioPlaceholder (vi cn : ℤ) : String :=
  s!"Audio transcription failed for video {vi} chunk {cn}."

/-- The failure placeholder substituted on video-task failure
(main.go line 441). -/
def videoPlaceholder (vi cn : ℤ) : String :=
  s!"Video transcription failed for video {vi} chunk {cn}."

/-- `processChunk` (main.go lines 401-454), viewed through its effect on
the two output streams (modelled as append-only record lists; the record
bodies are what each goroutine's `Fprintf` writes).  A chunk carrying an
error is reported and skipped (lines 405-408); otherwise the audio and
video goroutines each run their task, substitute the placeholder on task
failure, and append exactly one record to their own stream.  Each
goroutine writes its record unconditionally, so neither task's failure
affects the other's record. -/
def processChunk (c : ChunkData) (env : ProcEnv)
    (audioStream videoStream : List StreamRecord) :
    List StreamRecord × List StreamRecord :=
  match c.err with
  | some _ => (audioStream, videoStream)
  | none =>
    let audioText := match env.audioResult with
      | .ok t => t
      | .error _ => audioPlaceholder c.videoIndex c.chunkNum
    let videoText := match env.videoResult with
      | .ok t => t
      | .error _ => videoPlaceholder c.videoIndex c.chunkNum
    (audioStream ++ [⟨c.videoIndex, c.chunkNum, audioText⟩],
     videoStream ++ [⟨c.videoIndex, c.chunkNum, videoText⟩])

/-- C5: for every processed segment (one whose `ChunkData` carries no
error) exactly one record is appended to the audio stream and exactly one
to the video stream, whatever the two task outcomes are; on task failure
the corresponding failure placeholder is the record's body; and since the
equations hold for every combination of outcomes, neither task's failure
prevents the other task's record. -/
theorem processChunk_exactly_one_record (c : ChunkData) (env : ProcEnv)
    (audioStream videoStream : List StreamRecord) (h : c.err = none) :
    (processChunk c env audioStream videoStream).1.length = audioStream.length + 1 ∧
    (processChunk c env audioStream videoStream).2.length = videoStream.length + 1 ∧
    (env.audioResult = .error () →
      (processChunk c env audioStream videoStream).1
        = audioStream
            ++ [⟨c.videoIndex, c.chunkNum, audioPlaceholder c.videoIndex c.chunkNum⟩]) ∧
    (env.videoResult = .error () →
      (processChunk c env audioStream videoStream).2
        = videoStream
            ++ [⟨c.videoIndex, c.chunkNum, videoPlaceholder c.videoIndex c.chunkNum⟩]) := by
  cases ha : env.audioResult <;> cases hv : env.videoResult <;>
    simp [processChunk, h, ha, hv]

/-- The segment record for chunk 0 of video 1. -/
def chunkEx : ChunkData :=
  ⟨"tmp/chunk_0_video_1.mp4", "tmp/chunk_0_video_1.wav", 0, none, 1, "lecture"⟩

/-- Task outcomes where both transcription engines fail. -/
def procEnvBothFail : ProcEnv := ⟨.error (), .error ()⟩

/-- Witness for C5: even with both tasks failing, each stream gains
exactly its placeholder record. -/
theorem processChunk_exactly_one_record_witness :
    (processChunk chunkEx procEnvBothFail [] []).1
      = [⟨1, 0, audioPlaceholder 1 0⟩] ∧
    (processChunk chunkEx procEnvBothFail [] []).2
      = [⟨1, 0, videoPlaceholder 1 0⟩] :=
  ⟨(processChunk_exactly_one_record chunkEx procEnvBothFail [] [] rfl).2.2.1 rfl,
   (processChunk_exactly_one_record chunkEx procEnvBothFail [] [] rfl).2.2.2 rfl⟩

/-! ## Artifact-deletion ordering inside `processChunk`
(main.go lines 413-452)

The audio goroutine performs, in program order: finish the audio task
(line 420), append the audio record (line 426), delete the audio
artifact (line 431).  The video goroutine performs: finish the video
task (line 438), append the video record (line 444), delete the video
artifact (line 449).  The only synchronisation is the final `wg.Wait()`
(line 452), so an execution of `processChunk` is an arbitrary
interleaving of the two three-event sequences. -/

inductive SegEvent where
  | audioTaskDone
  | audioAppend
  | audioRemoveArtifact
  | videoTaskDone
  | videoAppend
  | videoRemoveArtifact
deriving DecidableEq, Repr

/-- Program order of the audio goroutine (main.go lines 418-432). -/
def audioEvents : List SegEvent := [.audioTaskDone, .audioAppend, .audioRemoveArtifact]

/-- Program order of the video goroutine (main.go lines 436-450). -/
def videoEvents : List SegEvent := [.videoTaskDone, .videoAppend, .videoRemoveArtifact]

/-- Fuel-indexed interleaving enumerator (structural in the fuel so that
it evaluates inside the kernel); with fuel at least the total length it
enumerates every interleaving of the two sequences. -/
def interleavingsF : ℕ → List SegEvent → List SegEvent → List (List SegEvent)
  | 0, xs, ys => [xs ++ ys]
  | _ + 1, [], ys => [ys]
  | _ + 1, x :: xs, [] => [x :: xs]
  | f + 1, x :: xs, y :: ys =>
      (interleavingsF f xs (y :: ys)).map (fun t => x :: t) ++
      (interleavingsF f (x :: xs) ys).map (fun t => y :: t)

/-- All interleavings of two sequences: the admissible schedules of two
goroutines whose only join point is after both finish. -/
def interleavings (xs ys : List SegEvent) : List (List SegEvent) :=
  interleavingsF (xs.length + ys.length) xs ys

/-- Index of the first occurrence of an event in a trace. -/
def posOf : List SegEvent → SegEvent → ℕ
  | [], _ => 0
  | x :: xs, a => if x = a then 0 else posOf xs a + 1

/-- The claimed property: neither artifact is deleted before BOTH tasks
have completed. -/
def noRemovalBeforeBothTasks (t : List SegEvent) : Bool :=
  decide (posOf t .audioTaskDone < posOf t .audioRemoveArtifact) &&
  decide (posOf t .videoTaskDone < posOf t .audioRemoveArtifact) &&
  decide (posOf t .audioTaskDone < posOf t .videoRemoveArtifact) &&
  decide (posOf t .videoTaskDone < posOf t .videoRemoveArtifact)

/-- The discipline the code actually guarantees: each artifact is deleted
only after its OWN task completed and its own record was appended. -/
def artifactDiscipline (t : List SegEvent) : Bool :=
  decide (posOf t .audioTaskDone < posOf t .audioAppend) &&
  decide (posOf t .audioAppend < posOf t .audioRemoveArtifact) &&
  decide (posOf t .videoTaskDone < posOf t .videoAppend) &&
  decide (posOf t .videoAppend < posOf t .videoRemoveArtifact)

/-- The schedule in which the audio goroutine runs to completion before
the video goroutine starts. -/
def badTrace : List SegEvent := audioEvents ++ videoEvents

/-- C8 counterexample: `badTrace` is an admissible schedule of
`processChunk`'s two goroutines (each artifact is deleted by its own
goroutine, with no cross-goroutine barrier before the deletion), and in
it the audio artifact is removed before the video task completes — so
the claim that neither artifact is deleted before both tasks complete is
false. -/
theorem segment_artifact_early_delete :
    badTrace ∈ interleavings audioEvents videoEvents ∧
    noRemovalBeforeBothTasks badTrace = false := by decide

/-- C8 amended: in every admissible schedule, each of the segment's two
temp artifacts is deleted only after its own transcription task has
completed, and the corresponding stream record is appended before the
artifact is deleted. -/
theorem segment_artifact_own_task_discipline :
    (interleavings audioEvents videoEvents).all artifactDiscipline = true := by decide

/-! ## Input discovery (`isVideoFile`, main.go lines 609-619) -/

/-- Scanner for Go's `filepath.Ext`: walk the path backwards (the input
is the reversed character list, `acc` the characters already passed); a
path separator before any dot means no extension, a dot yields the
suffix from that dot on. -/
def extScan : List Char → List Char → String
  | [], _ => ""
  | c :: rest, acc =>
    if c = '/' then ""
    else if c = '.' then String.mk ('.' :: acc)
    else extScan rest (c :: acc)

/-- Go's `filepath.Ext(path)`: the suffix beginning at the final dot in
the final slash-separated element of the path, empty if there is none. -/
def goExt (p : String) : String := extScan p.data.reverse []

/-- The `videoExtensions` list (main.go line 612). -/
def videoExtensions : List String :=
  [".mp4", ".mov", ".avi", ".wmv", ".mkv", ".flv", ".webm", ".mpeg", ".mpg"]

/-- The membership loop of `isVideoFile` (lines 613-617), with its early
`return true`. -/
def extMatches : List String → String → Bool
  | [], _ => false
  | v :: rest, ext => if ext = v then true else extMatches rest ext

/-- Per-character model of Go's `unicode.ToLower` (the simple case
mapping `strings.ToLower` applies rune by rune), exact on every
character whose Go lowercase is ASCII: the ASCII uppercase letters, plus
the only two non-ASCII codepoints in Unicode whose simple lowercase
mapping is ASCII — U+212A KELVIN SIGN ↦ `k` and U+0130 LATIN CAPITAL
LETTER I WITH DOT ABOVE ↦ `i`.  Every remaining character is modelled as
itself; Go may map such a character to a different codepoint, but always
to a non-ASCII one, so a string containing one is outside the all-ASCII
`videoExtensions` list under both mappings and `isVideoFile` is
unaffected. -/
def goToLowerChar (c : Char) : Char :=
  if c = '\u212A' then 'k'
  else if c = '\u0130' then 'i'
  else if 'A' ≤ c ∧ c ≤ 'Z' then Char.ofNat (c.toNat + 32)
  else c

/-- Go's `strings.ToLower`: the per-rune simple case mapping over the
whole string. -/
def goToLower (s : String) : String :=
  String.mk (s.data.map goToLowerChar)

/-- `isVideoFile` (main.go lines 609-619): lowercase the extension and
scan the fixed extension list. -/
def isVideoFile (path : String) : Bool :=
  extMatches videoExtensions (goToLower (goExt path))

lemma extMatches_iff (l : List String) (e : String) :
    extMatches l e = true ↔ e ∈ l := by
  induction l with
  | nil => simp [extMatches]
  | cons v rest ih => by_cases h : e = v <;> simp [extMatches, h, ih]

/-- C10: `isVideoFile` returns true exactly when the path's filename
extension, lowercased by Go's `strings.ToLower` (Unicode simple case
mapping, under which also `.m` + KELVIN SIGN + `v` lowercases to
`.mkv`), is one of exactly `.mp4`, `.mov`, `.avi`, `.wmv`, `.mkv`,
`.flv`, `.webm`, `.mpeg`, `.mpg`: a pure function of the path string —
discovery never looks at file content. -/
theorem isVideoFile_iff (p : String) :
    isVideoFile p = true ↔
      goToLower (goExt p) ∈
        ([".mp4", ".mov", ".avi", ".wmv", ".mkv", ".flv", ".webm", ".mpeg", ".mpg"]
          : List String) := by
  simpa [isVideoFile, videoExtensions]
    using extMatches_iff videoExtensions (goToLower (goExt p))

/-- Witness for C10 at concrete paths: an ASCII upper-case extension and
the Kelvin-sign extension `.m` + U+212A + `v`, whose Unicode lowercase is
`.mkv`, are both accepted. -/
theorem isVideoFile_iff_witness :
    isVideoFile "Lecture.MP4" = true ∧ isVideoFile "clip.m\u212Av" = true :=
  ⟨(isVideoFile_iff "Lecture.MP4").mpr (by decide),
   (isVideoFile_iff "clip.m\u212Av").mpr (by decide)⟩

end VideoTranscription
